import Mathlib

/-!
Shallow embedding of the Game of Life implementation in `src/main.py`
(classes `Cell`, `Grid`, and the mouse branch of `Game.handle_events`),
together with proofs of the specified properties.

Modelling conventions:
* Python ints that are always nonnegative (cell indices, pixel
  coordinates, sizes) are `Nat`; the indices passed to `Grid.toggle`
  may be negative, so they are `Int`.
* `numpy` 2-d object arrays are `List (List Cell)`; `flatten()` is
  row-major `List.flatten`.
* A raised `IndexError` that no caller catches is modelled by `Option`:
  `none` is the propagating out-of-range fault.
* `pygame.Rect(left, top, w, h)` is the tuple `(left, top, w, h)`.
-/

/-- A cell of the grid, mirroring `Cell.__init__`: row index `i`, column
index `j`, the screen rectangle built as `pygame.Rect(i*size, j*size,
size, size)` stored as `(left, top, width, height)`, and the alive flag. -/
structure Cell where
  i : Nat
  j : Nat
  rect : Nat × Nat × Nat × Nat
  alive : Bool
  deriving DecidableEq

/-- Constructor mirroring `Cell.__init__(i, j, size, alive)`. -/
def Cell.init (i j size : Nat) (alive : Bool) : Cell :=
  ⟨i, j, (i * size, j * size, size, size), alive⟩

/-- The cell method `Cell.toggle`: negate the alive flag. -/
def Cell.toggle (c : Cell) : Cell :=
  { c with alive := !c.alive }

/-- The grid, mirroring `Grid`: dimensions, cell size, and the 2-d
collection of cells indexed `[i][j]`. -/
structure Grid where
  n_rows : Nat
  n_cols : Nat
  cell_size : Nat
  cells : List (List Cell)
  deriving DecidableEq

/-- Placeholder cell used as the default of `List.getD`; it is never
reached by in-bounds accesses. -/
def cellDefault : Cell := ⟨0, 0, (0, 0, 0, 0), false⟩

/-- Constructor mirroring `Grid.__init__`: an `n_rows × n_cols` array of
cells, `cells[i][j] = Cell(i, j, cell_size)`, all dead. -/
def Grid.init (n_rows n_cols cell_size : Nat) : Grid :=
  ⟨n_rows, n_cols, cell_size,
    (List.range n_rows).map fun i =>
      (List.range n_cols).map fun j => Cell.init i j cell_size false⟩

/-- The cell stored at position `(i, j)`: `self.cells[i][j]` for
nonnegative in-bounds indices. -/
def Grid.cellAt (g : Grid) (i j : Nat) : Cell :=
  (g.cells.getD i []).getD j cellDefault

/-- The alive flag at position `(i, j)`. -/
def Grid.aliveAt (g : Grid) (i j : Nat) : Bool :=
  (g.cellAt i j).alive

/-- Python `range(a, b)`. -/
def pyRange (a b : Nat) : List Nat :=
  List.range' a (b - a)

/-- Mirror of `Grid.neighbors`: all cells `self.cells[i][j]` for `i` in
`range(max(cell.i-1, 0), min(cell.i+2, n_rows))` and `j` in
`range(max(cell.j-1, 0), min(cell.j+2, n_cols))`, skipping the cell's own
index pair. -/
def Grid.neighbors (g : Grid) (c : Cell) : List Cell :=
  (pyRange (max (c.i - 1) 0) (min (c.i + 2) g.n_rows)).flatMap fun i =>
    (pyRange (max (c.j - 1) 0) (min (c.j + 2) g.n_cols)).filterMap fun j =>
      if i = c.i ∧ j = c.j then none else some (g.cellAt i j)

/-- Mirror of `Grid.count_alive_neighbors`: the number of alive cells in
`neighbors(cell)`. -/
def Grid.count_alive_neighbors (g : Grid) (c : Cell) : Nat :=
  (g.neighbors c).countP fun d => d.alive

/-- Mirror of `Grid.rule`: should this cell's state flip this
generation? -/
def Grid.rule (g : Grid) (c : Cell) : Bool :=
  (c.alive && !(decide (2 ≤ g.count_alive_neighbors c ∧
      g.count_alive_neighbors c ≤ 3)))
    || (!c.alive && decide (g.count_alive_neighbors c = 3))

/-- Mirror of `self.cells.flatten()`: the row-major flattening of the
cell array. -/
def Grid.flatten (g : Grid) : List Cell :=
  g.cells.flatten

/-- In-place toggle of the cell stored at nonnegative position `(a, b)`:
the state reached after `self.cells[a][b].toggle()`. -/
def Grid.toggleAt (g : Grid) (a b : Nat) : Grid :=
  { g with
    cells := g.cells.set a
      ((g.cells.getD a []).set b (Cell.toggle ((g.cells.getD a []).getD b cellDefault))) }

/-- Mirror of `Grid.update`: first force
`list(filter(self.rule, self.cells.flatten()))` against the frozen state,
then toggle each collected cell in order. -/
def Grid.update (g : Grid) : Grid :=
  (g.flatten.filter fun c => g.rule c).foldl (fun acc c => acc.toggleAt c.i c.j) g

/-- Numpy single-axis integer indexing on an axis of size `n`: a negative
index `k` with `-n ≤ k` wraps to `n + k`; an index with `k < -n` or
`n ≤ k` raises `IndexError` (modelled as `none`). -/
def npIndex (n : Nat) (k : Int) : Option Nat :=
  if 0 ≤ k then
    if k < (n : Int) then some k.toNat else none
  else
    if -(n : Int) ≤ k then some ((n : Int) + k).toNat else none

/-- The effective numpy index when `npIndex` succeeds. -/
def wrapIdx (n : Nat) (k : Int) : Nat :=
  if 0 ≤ k then k.toNat else ((n : Int) + k).toNat

/-- Mirror of `Grid.toggle(i, j)`: `self.cells[i][j].toggle()` under numpy
indexing semantics; `none` is the propagating `IndexError`. -/
def Grid.toggle (g : Grid) (i j : Int) : Option Grid :=
  (npIndex g.cells.length i).bind fun a =>
    (npIndex (g.cells.getD a []).length j).bind fun b =>
      some (g.toggleAt a b)

/-- Mirror of the mouse branch of `Game.handle_events`:
`self.grid.toggle(pos[0] // self.cell_size, pos[1] // self.cell_size)`
for a mouse position `(x, y)` (pixel coordinates, nonnegative). `none`
is the uncaught `IndexError` propagating out of the handler. -/
def handleClick (g : Grid) (x y : Nat) : Option Grid :=
  g.toggle ((x / g.cell_size : Nat) : Int) ((y / g.cell_size : Nat) : Int)

/-- Containment of a point in a rectangle `(left, top, w, h)`, with
pygame's half-open convention `left ≤ x < left + w`, `top ≤ y < top + h`. -/
def rectContains (r : Nat × Nat × Nat × Nat) (x y : Nat) : Prop :=
  r.1 ≤ x ∧ x < r.1 + r.2.2.1 ∧ r.2.1 ≤ y ∧ y < r.2.1 + r.2.2.2

/-- Modelled from the spec: the standard B3/S23 next alive state of a cell
with alive flag `alive` and `n` alive neighbors — a live cell survives
with 2 or 3 live neighbors, a dead cell is born with exactly 3. -/
def lifeNextAlive (alive : Bool) (n : Nat) : Bool :=
  (alive && decide (2 ≤ n ∧ n ≤ 3)) || (!alive && decide (n = 3))

/-- Modelled from the spec: the standard synchronous (double-buffered)
Game of Life step — every cell's next alive flag is computed by
`lifeNextAlive` from the frozen prior grid, and nothing else changes. -/
def Grid.lifeStep (g : Grid) : Grid :=
  { g with
    cells := g.cells.map fun row => row.map fun c =>
      { c with alive := lifeNextAlive c.alive (g.count_alive_neighbors c) } }

/-- Well-formedness of a grid state, as established by `Grid.__init__` and
preserved by every operation: the collection has exactly `n_rows × n_cols`
cells and the cell stored at `(i, j)` carries indices `(i, j)`. -/
def Grid.WF (g : Grid) : Prop :=
  g.cells.length = g.n_rows ∧
  (∀ row ∈ g.cells, row.length = g.n_cols) ∧
  ∀ i, i < g.n_rows → ∀ j, j < g.n_cols →
    (g.cellAt i j).i = i ∧ (g.cellAt i j).j = j

instance (g : Grid) : Decidable (Grid.WF g) := by
  unfold Grid.WF
  infer_instance

/-- Dimension bookkeeping: the cell collection is an `R × C` array. -/
def Grid.Dims (g : Grid) (R C : Nat) : Prop :=
  g.cells.length = R ∧ ∀ row ∈ g.cells, row.length = C

lemma Grid.WF.dims {g : Grid} (h : g.WF) : g.Dims g.n_rows g.n_cols :=
  ⟨h.1, h.2.1⟩

lemma getD_set_ne {α : Type} (l : List α) (d : α) {n m : Nat} (a : α) (h : n ≠ m) :
    (l.set n a).getD m d = l.getD m d := by
  rw [List.getD_eq_getElem?_getD, List.getD_eq_getElem?_getD, List.getElem?_set_ne h]

lemma getD_set_self {α : Type} (l : List α) (d : α) {n : Nat} (a : α) (h : n < l.length) :
    (l.set n a).getD n d = a := by
  rw [List.getD_eq_getElem?_getD, List.getElem?_set_self h]
  rfl

lemma Cell.toggle_i (c : Cell) : c.toggle.i = c.i := rfl

lemma Cell.toggle_j (c : Cell) : c.toggle.j = c.j := rfl

lemma Cell.toggle_rect (c : Cell) : c.toggle.rect = c.rect := rfl

lemma Cell.toggle_alive (c : Cell) : c.toggle.alive = !c.alive := rfl

lemma Cell.toggle_toggle (c : Cell) : c.toggle.toggle = c := by
  cases c
  simp [Cell.toggle]

lemma Grid.toggleAt_n_rows (g : Grid) (a b : Nat) : (g.toggleAt a b).n_rows = g.n_rows := rfl

lemma Grid.toggleAt_n_cols (g : Grid) (a b : Nat) : (g.toggleAt a b).n_cols = g.n_cols := rfl

lemma Grid.toggleAt_cell_size (g : Grid) (a b : Nat) :
    (g.toggleAt a b).cell_size = g.cell_size := rfl

lemma Grid.Dims.row_len {g : Grid} {R C : Nat} (h : g.Dims R C) {i : Nat} (hi : i < R) :
    (g.cells.getD i []).length = C := by
  have hi' : i < g.cells.length := by rw [h.1]; exact hi
  rw [List.getD_eq_getElem _ _ hi']
  exact h.2 _ (List.getElem_mem hi')

lemma Grid.Dims.toggleAt {g : Grid} {R C : Nat} (h : g.Dims R C) (a b : Nat) :
    (g.toggleAt a b).Dims R C := by
  obtain ⟨h1, h2⟩ := h
  constructor
  · simp [Grid.toggleAt, h1]
  · intro row hrow
    simp only [Grid.toggleAt] at hrow
    rcases Nat.lt_or_ge a g.cells.length with ha | ha
    · rcases List.mem_or_eq_of_mem_set hrow with hmem | heq
      · exact h2 _ hmem
      · subst heq
        rw [List.length_set, List.getD_eq_getElem _ _ ha]
        exact h2 _ (List.getElem_mem ha)
    · rw [List.set_eq_of_length_le ha] at hrow
      exact h2 _ hrow

lemma Grid.cellAt_toggleAt_ne (g : Grid) {a b i j : Nat} (h : ¬(i = a ∧ j = b)) :
    (g.toggleAt a b).cellAt i j = g.cellAt i j := by
  unfold Grid.toggleAt Grid.cellAt
  simp only
  by_cases hia : i = a
  · subst hia
    have hjb : j ≠ b := fun hj => h ⟨rfl, hj⟩
    rcases Nat.lt_or_ge i g.cells.length with hi | hi
    · rw [getD_set_self _ _ _ hi, getD_set_ne _ _ _ (Ne.symm hjb)]
    · rw [List.set_eq_of_length_le hi]
  · rw [getD_set_ne _ _ _ (fun hh => hia hh.symm)]

lemma Grid.cellAt_toggleAt_self (g : Grid) {a b : Nat} (ha : a < g.cells.length)
    (hb : b < (g.cells.getD a []).length) :
    (g.toggleAt a b).cellAt a b = (g.cellAt a b).toggle := by
  unfold Grid.toggleAt Grid.cellAt
  simp only
  rw [getD_set_self _ _ _ ha, getD_set_self _ _ _ hb]

/-- The number of cells in `L` carrying the index pair `(i, j)`. -/
def posCount (L : List Cell) (i j : Nat) : Nat :=
  L.countP fun c => decide (c.i = i ∧ c.j = j)

lemma foldl_toggleAt_cellAt {R C : Nat} :
    ∀ (L : List Cell) (g : Grid), g.Dims R C → (∀ c ∈ L, c.i < R ∧ c.j < C) →
      ∀ i j : Nat,
        (L.foldl (fun acc c => acc.toggleAt c.i c.j) g).cellAt i j =
          if posCount L i j % 2 = 1 then (g.cellAt i j).toggle else g.cellAt i j := by
  intro L
  induction L with
  | nil =>
    intro g hd hL i j
    simp [posCount]
  | cons c L ih =>
    intro g hd hL i j
    have hc := hL c (List.mem_cons_self c L)
    have hd' := hd.toggleAt c.i c.j
    rw [List.foldl_cons,
      ih _ hd' (fun x hx => hL x (List.mem_cons_of_mem _ hx)) i j]
    by_cases hm : c.i = i ∧ c.j = j
    · obtain ⟨h1, h2⟩ := hm
      subst h1
      subst h2
      have hcnt : posCount (c :: L) c.i c.j = posCount L c.i c.j + 1 := by
        simp [posCount, List.countP_cons]
      have hbi : c.i < g.cells.length := by rw [hd.1]; exact hc.1
      have hbj : c.j < (g.cells.getD c.i []).length := by
        rw [hd.row_len hc.1]; exact hc.2
      rw [Grid.cellAt_toggleAt_self g hbi hbj, hcnt]
      by_cases hodd : posCount L c.i c.j % 2 = 1
      · rw [if_pos hodd, if_neg (by omega), Cell.toggle_toggle]
      · rw [if_neg hodd, if_pos (by omega)]
    · have hcnt : posCount (c :: L) i j = posCount L i j := by
        simp [posCount, List.countP_cons, hm]
      rw [Grid.cellAt_toggleAt_ne g (fun hh => hm ⟨hh.1.symm, hh.2.symm⟩), hcnt]

lemma foldl_toggleAt_dims {R C : Nat} :
    ∀ (L : List Cell) (g : Grid), g.Dims R C →
      (L.foldl (fun acc c => acc.toggleAt c.i c.j) g).Dims R C := by
  intro L
  induction L with
  | nil => intro g hd; exact hd
  | cons c L ih =>
    intro g hd
    rw [List.foldl_cons]
    exact ih _ (hd.toggleAt c.i c.j)

lemma foldl_toggleAt_meta :
    ∀ (L : List Cell) (g : Grid),
      (L.foldl (fun acc c => acc.toggleAt c.i c.j) g).n_rows = g.n_rows ∧
      (L.foldl (fun acc c => acc.toggleAt c.i c.j) g).n_cols = g.n_cols ∧
      (L.foldl (fun acc c => acc.toggleAt c.i c.j) g).cell_size = g.cell_size := by
  intro L
  induction L with
  | nil => intro g; exact ⟨rfl, rfl, rfl⟩
  | cons c L ih =>
    intro g
    rw [List.foldl_cons]
    exact ih (g.toggleAt c.i c.j)

lemma Grid.Dims.cells_eq {g : Grid} {R C : Nat} (h : g.Dims R C) :
    g.cells = (List.range R).map fun i => (List.range C).map fun j => g.cellAt i j := by
  apply List.ext_getElem
  · simp [h.1]
  · intro i hi1 hi2
    have hiR : i < R := by rw [← h.1]; exact hi1
    simp only [List.getElem_map, List.getElem_range]
    apply List.ext_getElem
    · rw [h.2 _ (List.getElem_mem hi1), List.length_map, List.length_range]
    · intro j hj1 hj2
      simp only [List.getElem_map, List.getElem_range]
      unfold Grid.cellAt
      rw [List.getD_eq_getElem _ _ hi1, List.getD_eq_getElem _ _ hj1]

lemma countP_range_indicator {n j : Nat} (f : Nat → Bool) (hj : j < n) :
    (List.range n).countP (fun k => decide (k = j) && f k) = if f j then 1 else 0 := by
  induction n with
  | zero => omega
  | succ n ih =>
    rw [List.range_succ, List.countP_append]
    by_cases h : j = n
    · subst h
      have h0 : (List.range j).countP (fun k => decide (k = j) && f k) = 0 := by
        rw [List.countP_eq_zero]
        intro a ha
        rw [List.mem_range] at ha
        simp [Nat.ne_of_lt ha]
      rw [h0]
      simp [List.countP_cons]
    · have hj' : j < n := by omega
      rw [ih hj']
      have hne : n ≠ j := fun hh => h hh.symm
      have h1 : (List.countP (fun k => decide (k = j) && f k) [n]) = 0 := by
        simp [List.countP_cons, hne]
      rw [h1, Nat.add_zero]

lemma sum_map_range_single {n i : Nat} (f : Nat → Nat) (hi : i < n)
    (h0 : ∀ k, k < n → k ≠ i → f k = 0) : ((List.range n).map f).sum = f i := by
  induction n with
  | zero => omega
  | succ n ih =>
    rw [List.range_succ, List.map_append, List.sum_append]
    by_cases h : i = n
    · subst h
      have hz : ((List.range i).map f).sum = 0 := by
        rw [List.sum_eq_zero_iff]
        intro x hx
        rw [List.mem_map] at hx
        obtain ⟨k, hk, rfl⟩ := hx
        rw [List.mem_range] at hk
        exact h0 k (by omega) (Nat.ne_of_lt hk)
      rw [hz]
      simp
    · have hfn : f n = 0 := h0 n (by omega) (fun hh => h hh.symm)
      rw [ih (by omega) (fun k hk hki => h0 k (by omega) hki)]
      simp [hfn]

lemma Grid.WF.cellAt_i {g : Grid} (h : g.WF) {i j : Nat} (hi : i < g.n_rows)
    (hj : j < g.n_cols) : (g.cellAt i j).i = i :=
  (h.2.2 i hi j hj).1

lemma Grid.WF.cellAt_j {g : Grid} (h : g.WF) {i j : Nat} (hi : i < g.n_rows)
    (hj : j < g.n_cols) : (g.cellAt i j).j = j :=
  (h.2.2 i hi j hj).2

lemma countP_pos_flatten_filter (g : Grid) (hw : g.WF) (q : Cell → Bool) {i j : Nat}
    (hi : i < g.n_rows) (hj : j < g.n_cols) :
    posCount (g.flatten.filter q) i j = if q (g.cellAt i j) then 1 else 0 := by
  unfold posCount
  rw [List.countP_filter, Grid.flatten, hw.dims.cells_eq, List.countP_flatten, List.map_map]
  have hrow : ∀ a, a < g.n_rows →
      (List.countP (fun c => decide (c.i = i ∧ c.j = j) && q c)
        ((List.range g.n_cols).map fun b => g.cellAt a b)) =
      if a = i then (if q (g.cellAt i j) then 1 else 0) else 0 := by
    intro a ha
    rw [List.countP_map]
    by_cases hai : a = i
    · rw [if_pos hai, hai]
      have hcong : List.countP
            ((fun c => decide (c.i = i ∧ c.j = j) && q c) ∘ fun b => g.cellAt i b)
            (List.range g.n_cols) =
          List.countP (fun b => decide (b = j) && q (g.cellAt i b))
            (List.range g.n_cols) := by
        apply List.countP_congr
        intro b hb
        rw [List.mem_range] at hb
        simp only [Function.comp_apply, Bool.and_eq_true, decide_eq_true_eq,
          hw.cellAt_i hi hb, hw.cellAt_j hi hb]
        tauto
      rw [hcong, countP_range_indicator _ hj]
    · rw [if_neg hai, List.countP_eq_zero]
      intro b hb
      rw [List.mem_range] at hb
      simp only [Function.comp_apply, Bool.and_eq_true, decide_eq_true_eq,
        hw.cellAt_i ha hb, hw.cellAt_j ha hb]
      tauto
  have hsum := sum_map_range_single
    (fun a => List.countP (fun c => decide (c.i = i ∧ c.j = j) && q c)
      ((List.range g.n_cols).map fun b => g.cellAt a b)) hi
    (fun k hk hki => by
      show List.countP (fun c => decide (c.i = i ∧ c.j = j) && q c)
        ((List.range g.n_cols).map fun b => g.cellAt k b) = 0
      rw [hrow k hk, if_neg hki])
  have hbeta : (List.countP (fun c => decide (c.i = i ∧ c.j = j) && q c)
      (List.map (fun b => g.cellAt i b) (List.range g.n_cols))) =
      if q (g.cellAt i j) = true then 1 else 0 := by
    rw [hrow i hi, if_pos rfl]
  calc (List.map (List.countP (fun c => decide (c.i = i ∧ c.j = j) && q c) ∘
          fun a => List.map (fun b => g.cellAt a b) (List.range g.n_cols))
        (List.range g.n_rows)).sum
      = (List.map (fun a => List.countP (fun c => decide (c.i = i ∧ c.j = j) && q c)
          (List.map (fun b => g.cellAt a b) (List.range g.n_cols)))
        (List.range g.n_rows)).sum := rfl
    _ = List.countP (fun c => decide (c.i = i ∧ c.j = j) && q c)
          (List.map (fun b => g.cellAt i b) (List.range g.n_cols)) := hsum
    _ = if q (g.cellAt i j) = true then 1 else 0 := hbeta

lemma Grid.WF.mem_flatten_bounds {g : Grid} (hw : g.WF) {c : Cell}
    (hc : c ∈ g.flatten) : c.i < g.n_rows ∧ c.j < g.n_cols := by
  rw [Grid.flatten, hw.dims.cells_eq, List.mem_flatten] at hc
  obtain ⟨row, hrow, hcrow⟩ := hc
  rw [List.mem_map] at hrow
  obtain ⟨a, ha, rfl⟩ := hrow
  rw [List.mem_range] at ha
  rw [List.mem_map] at hcrow
  obtain ⟨b, hb, rfl⟩ := hcrow
  rw [List.mem_range] at hb
  rw [hw.cellAt_i ha hb, hw.cellAt_j ha hb]
  exact ⟨ha, hb⟩

lemma Grid.update_cellAt {g : Grid} (hw : g.WF) {i j : Nat} (hi : i < g.n_rows)
    (hj : j < g.n_cols) :
    g.update.cellAt i j =
      if g.rule (g.cellAt i j) then (g.cellAt i j).toggle else g.cellAt i j := by
  unfold Grid.update
  rw [foldl_toggleAt_cellAt _ _ hw.dims
    (fun c hc => hw.mem_flatten_bounds (List.mem_of_mem_filter hc)) i j]
  rw [countP_pos_flatten_filter g hw _ hi hj]
  by_cases hr : g.rule (g.cellAt i j)
  · rw [if_pos hr, if_pos hr, if_pos (by omega)]
  · rw [if_neg hr, if_neg hr, if_neg (by omega)]

lemma getD_map_in {α β : Type} (f : α → β) (l : List α) (d : β) (e : α) {n : Nat}
    (h : n < l.length) : (l.map f).getD n d = f (l.getD n e) := by
  rw [List.getD_eq_getElem _ _ (by simpa using h), List.getD_eq_getElem _ _ h,
    List.getElem_map]

lemma Grid.lifeStep_cellAt {g : Grid} {R C : Nat} (hd : g.Dims R C) {i j : Nat}
    (hi : i < R) (hj : j < C) :
    g.lifeStep.cellAt i j =
      { g.cellAt i j with
        alive := lifeNextAlive (g.cellAt i j).alive
          (g.count_alive_neighbors (g.cellAt i j)) } := by
  have hi' : i < g.cells.length := by rw [hd.1]; exact hi
  have hj' : j < (g.cells.getD i []).length := by rw [hd.row_len hi]; exact hj
  unfold Grid.lifeStep Grid.cellAt
  simp only
  rw [getD_map_in _ _ _ [] hi', getD_map_in _ _ _ cellDefault hj']

lemma Grid.ext' {a b : Grid} (h1 : a.n_rows = b.n_rows) (h2 : a.n_cols = b.n_cols)
    (h3 : a.cell_size = b.cell_size) (h4 : a.cells = b.cells) : a = b := by
  cases a
  cases b
  simp_all

lemma Grid.update_n_rows (g : Grid) : g.update.n_rows = g.n_rows :=
  (foldl_toggleAt_meta _ g).1

lemma Grid.update_n_cols (g : Grid) : g.update.n_cols = g.n_cols :=
  (foldl_toggleAt_meta _ g).2.1

lemma Grid.update_cell_size (g : Grid) : g.update.cell_size = g.cell_size :=
  (foldl_toggleAt_meta _ g).2.2

lemma Grid.update_dims {g : Grid} {R C : Nat} (hd : g.Dims R C) : g.update.Dims R C :=
  foldl_toggleAt_dims _ g hd

lemma rule_toggle_eq (g : Grid) (c : Cell) :
    (if g.rule c then c.toggle else c) =
      { c with alive := lifeNextAlive c.alive (g.count_alive_neighbors c) } := by
  obtain ⟨i, j, r, a⟩ := c
  cases a
  · by_cases h : g.count_alive_neighbors ⟨i, j, r, false⟩ = 3
    · simp [Grid.rule, Cell.toggle, lifeNextAlive, h]
    · simp [Grid.rule, Cell.toggle, lifeNextAlive, h]
  · by_cases h : 2 ≤ g.count_alive_neighbors ⟨i, j, r, true⟩ ∧
        g.count_alive_neighbors ⟨i, j, r, true⟩ ≤ 3
    · simp [Grid.rule, Cell.toggle, lifeNextAlive, h]
    · simp [Grid.rule, Cell.toggle, lifeNextAlive, h]

lemma Grid.lifeStep_dims {g : Grid} (hw : g.WF) :
    g.lifeStep.Dims g.n_rows g.n_cols := by
  constructor
  · simp [Grid.lifeStep, hw.1]
  · intro row hrow
    simp only [Grid.lifeStep, List.mem_map] at hrow
    obtain ⟨row0, hrow0, rfl⟩ := hrow
    rw [List.length_map]
    exact hw.2.1 _ hrow0

lemma Grid.update_eq_lifeStep_of_WF {g : Grid} (hw : g.WF) : g.update = g.lifeStep := by
  have hdU : g.update.Dims g.n_rows g.n_cols := Grid.update_dims hw.dims
  have hdL : g.lifeStep.Dims g.n_rows g.n_cols := Grid.lifeStep_dims hw
  apply Grid.ext'
  · rw [Grid.update_n_rows]; rfl
  · rw [Grid.update_n_cols]; rfl
  · rw [Grid.update_cell_size]; rfl
  · apply List.ext_getElem
    · rw [hdU.1, hdL.1]
    · intro n hn1 hn2
      apply List.ext_getElem
      · rw [hdU.2 _ (List.getElem_mem hn1), hdL.2 _ (List.getElem_mem hn2)]
      · intro m hm1 hm2
        have hnR : n < g.n_rows := by rw [← hdU.1]; exact hn1
        have hmC : m < g.n_cols := by
          rw [← hdU.2 _ (List.getElem_mem hn1)]; exact hm1
        have e1 : g.update.cellAt n m = g.update.cells[n][m] := by
          unfold Grid.cellAt
          rw [List.getD_eq_getElem _ _ hn1]
          exact List.getD_eq_getElem _ _ hm1
        have e2 : g.lifeStep.cellAt n m = g.lifeStep.cells[n][m] := by
          unfold Grid.cellAt
          rw [List.getD_eq_getElem _ _ hn2]
          exact List.getD_eq_getElem _ _ hm2
        rw [← e1, ← e2, Grid.update_cellAt hw hnR hmC,
          Grid.lifeStep_cellAt hw.dims hnR hmC, rule_toggle_eq]

lemma init_cellAt (R C s : Nat) {i j : Nat} (hi : i < R) (hj : j < C) :
    (Grid.init R C s).cellAt i j = Cell.init i j s false := by
  simp [Grid.init, Grid.cellAt, List.getD_eq_getElem?_getD, List.getElem?_map,
    List.getElem?_range, hi, hj]

lemma init_alive_false (R C s i j : Nat) : ((Grid.init R C s).cellAt i j).alive = false := by
  by_cases hi : i < R
  · by_cases hj : j < C
    · rw [init_cellAt R C s hi hj]
      rfl
    · have hj' : (List.range C)[j]? = none :=
        List.getElem?_eq_none (by simpa using Nat.le_of_not_lt hj)
      simp [Grid.init, Grid.cellAt, List.getD_eq_getElem?_getD, List.getElem?_map,
        List.getElem?_range, hi, hj', cellDefault]
  · have hi' : (List.range R)[i]? = none :=
      List.getElem?_eq_none (by simpa using Nat.le_of_not_lt hi)
    simp [Grid.init, Grid.cellAt, List.getD_eq_getElem?_getD, List.getElem?_map,
      hi', cellDefault]

lemma init_count_zero (R C s : Nat) (c : Cell) :
    (Grid.init R C s).count_alive_neighbors c = 0 := by
  unfold Grid.count_alive_neighbors
  rw [List.countP_eq_zero]
  intro d hd
  unfold Grid.neighbors at hd
  rw [List.mem_flatMap] at hd
  obtain ⟨a, _, hd⟩ := hd
  rw [List.mem_filterMap] at hd
  obtain ⟨b, _, hb⟩ := hd
  by_cases hab : a = c.i ∧ b = c.j
  · rw [if_pos hab] at hb
    cases hb
  · rw [if_neg hab] at hb
    simp only [Option.some.injEq] at hb
    subst hb
    simp [init_alive_false]

lemma init_flatten_dead (R C s : Nat) : ∀ c ∈ (Grid.init R C s).flatten, c.alive = false := by
  intro c hc
  unfold Grid.flatten Grid.init at hc
  simp only at hc
  rw [List.mem_flatten] at hc
  obtain ⟨row, hrow, hcrow⟩ := hc
  rw [List.mem_map] at hrow
  obtain ⟨a, _, rfl⟩ := hrow
  rw [List.mem_map] at hcrow
  obtain ⟨b, _, rfl⟩ := hcrow
  rfl

lemma init_rule_false (R C s : Nat) (c : Cell) (hc : c.alive = false) :
    (Grid.init R C s).rule c = false := by
  unfold Grid.rule
  rw [hc, init_count_zero]
  simp

/-- The horizontal blinker on a 5×5 grid: all dead except `(2,1)`, `(2,2)`,
`(2,3)` alive. -/
def blinkerH : Grid :=
  (((Grid.init 5 5 1).toggleAt 2 1).toggleAt 2 2).toggleAt 2 3

/-- The vertical blinker on a 5×5 grid: all dead except `(1,2)`, `(2,2)`,
`(3,2)` alive. -/
def blinkerV : Grid :=
  (((Grid.init 5 5 1).toggleAt 1 2).toggleAt 2 2).toggleAt 3 2

/-- Claim C1: for every (well-formed) grid state, `update` advances the grid
by exactly one synchronous generation — every flip decision is evaluated by
`rule` against the frozen generation-N state, all collected flips are then
applied, and the result equals the standard synchronous (double-buffered)
Game of Life step `lifeStep`. -/
theorem update_is_synchronous_life_step (g : Grid) (hw : g.WF) :
    g.update = g.lifeStep :=
  Grid.update_eq_lifeStep_of_WF hw

/-- Witness for C1 at the concrete blinker grid. -/
theorem update_is_synchronous_life_step_witness :
    blinkerH.WF ∧ blinkerH.update = blinkerH.lifeStep :=
  ⟨by decide, update_is_synchronous_life_step blinkerH (by decide)⟩

/-- Claim C2: `rule` returns true iff the cell is alive with neighbor count
outside `[2,3]`, or dead with neighbor count exactly 3; false otherwise. -/
theorem rule_flips_iff_B3S23 (g : Grid) (c : Cell) :
    g.rule c = true ↔
      ((c.alive = true ∧
          ¬(2 ≤ g.count_alive_neighbors c ∧ g.count_alive_neighbors c ≤ 3)) ∨
        (c.alive = false ∧ g.count_alive_neighbors c = 3)) := by
  obtain ⟨i, j, r, a⟩ := c
  cases a <;> simp [Grid.rule] <;> omega

/-- Claim C6: on a 5×5 grid, the horizontal blinker `(2,1),(2,2),(2,3)`
becomes exactly the vertical blinker `(1,2),(2,2),(3,2)` after one `update`,
and returns exactly to the horizontal blinker after a second `update`. -/
theorem blinker_oscillates_period_two :
    blinkerH.update = blinkerV ∧ blinkerH.update.update = blinkerH := by
  decide

/-- Claim C7: `update` applied to an all-dead grid of any dimensions leaves
every cell dead — no spontaneous generation. -/
theorem update_all_dead_stays_dead (R C s : Nat) :
    (Grid.init R C s).update = Grid.init R C s := by
  unfold Grid.update
  have hnil : ((Grid.init R C s).flatten.filter fun c => (Grid.init R C s).rule c) = [] := by
    rw [List.filter_eq_nil_iff]
    intro c hc
    rw [init_rule_false R C s c (init_flatten_dead R C s c hc)]
    simp
  rw [hnil, List.foldl_nil]

lemma mem_pyRange {a b m : Nat} : m ∈ pyRange a b ↔ a ≤ m ∧ m < b := by
  unfold pyRange
  rw [List.mem_range'_1]
  omega

lemma neighbors_mem (g : Grid) (c d : Cell) :
    d ∈ g.neighbors c ↔ ∃ a b : Nat,
      a ∈ pyRange (max (c.i - 1) 0) (min (c.i + 2) g.n_rows) ∧
      b ∈ pyRange (max (c.j - 1) 0) (min (c.j + 2) g.n_cols) ∧
      ¬(a = c.i ∧ b = c.j) ∧ d = g.cellAt a b := by
  unfold Grid.neighbors
  rw [List.mem_flatMap]
  constructor
  · rintro ⟨a, ha, hd⟩
    rw [List.mem_filterMap] at hd
    obtain ⟨b, hb, hbd⟩ := hd
    by_cases hab : a = c.i ∧ b = c.j
    · rw [if_pos hab] at hbd
      cases hbd
    · rw [if_neg hab] at hbd
      simp only [Option.some.injEq] at hbd
      exact ⟨a, b, ha, hb, hab, hbd.symm⟩
  · rintro ⟨a, b, ha, hb, hab, rfl⟩
    refine ⟨a, ha, ?_⟩
    rw [List.mem_filterMap]
    exact ⟨b, hb, by rw [if_neg hab]⟩

lemma countP_not_bool {α : Type} (l : List α) (p : α → Bool) :
    l.countP (fun x => !p x) = l.length - l.countP p := by
  induction l with
  | nil => rfl
  | cons x l ih =>
    have hle := List.countP_le_length p (l := l)
    cases hx : p x <;> simp [List.countP_cons, hx, ih] <;> omega

lemma countP_pyRange_eq_center {s n j : Nat} (h1 : s ≤ j) (h2 : j < s + n) :
    (List.range' s n).countP (fun b => decide (b = j)) = 1 := by
  induction n generalizing s with
  | zero => omega
  | succ n ih =>
    rw [List.range'_succ, List.countP_cons]
    by_cases hs : s = j
    · have hz : (List.range' (s + 1) n).countP (fun b => decide (b = j)) = 0 := by
        rw [List.countP_eq_zero]
        intro b hb
        rw [List.mem_range'_1] at hb
        simp only [decide_eq_true_eq]
        omega
      rw [hz]
      simp [hs]
    · rw [ih (by omega) (by omega)]
      simp [hs]

lemma inner_length_ne (g : Grid) {i a : Nat} (j : Nat) (ha : a ≠ i) :
    ((pyRange (max (j - 1) 0) (min (j + 2) g.n_cols)).filterMap fun b =>
        if a = i ∧ b = j then none else some (g.cellAt a b)).length =
      min (j + 2) g.n_cols - (j - 1) := by
  rw [List.length_filterMap_eq_countP]
  have hall : ∀ b ∈ pyRange (max (j - 1) 0) (min (j + 2) g.n_cols),
      ((if a = i ∧ b = j then none else some (g.cellAt a b)).isSome) = true := by
    intro b hb
    rw [if_neg (fun hh => ha hh.1)]
    rfl
  rw [List.countP_eq_length.mpr hall]
  unfold pyRange
  rw [List.length_range']
  omega

lemma inner_length_eq (g : Grid) {j : Nat} (i : Nat) (hj : j < g.n_cols) :
    ((pyRange (max (j - 1) 0) (min (j + 2) g.n_cols)).filterMap fun b =>
        if i = i ∧ b = j then none else some (g.cellAt i b)).length =
      (min (j + 2) g.n_cols - (j - 1)) - 1 := by
  rw [List.length_filterMap_eq_countP]
  have hcong : List.countP
      (fun b => (if i = i ∧ b = j then none else some (g.cellAt i b)).isSome)
      (pyRange (max (j - 1) 0) (min (j + 2) g.n_cols)) =
      List.countP (fun b => !decide (b = j))
        (pyRange (max (j - 1) 0) (min (j + 2) g.n_cols)) := by
    apply List.countP_congr
    intro b hb
    by_cases hbj : b = j
    · rw [if_pos ⟨rfl, hbj⟩]
      simp [hbj]
    · rw [if_neg (fun hh => hbj hh.2)]
      simp [hbj]
  rw [hcong, countP_not_bool]
  unfold pyRange
  rw [countP_pyRange_eq_center (by omega) (by omega), List.length_range']
  omega

lemma sum_map_constant {L : List Nat} (f : Nat → Nat) (v : Nat)
    (h : ∀ b ∈ L, f b = v) : (L.map f).sum = L.length * v := by
  induction L with
  | nil => simp
  | cons a L ih =>
    rw [List.map_cons, List.sum_cons, h a (List.mem_cons_self a L),
      ih (fun b hb => h b (List.mem_cons_of_mem _ hb)), List.length_cons]
    ring

lemma sum_map_single {L : List Nat} (hnd : L.Nodup) {i : Nat} (hmem : i ∈ L)
    (f : Nat → Nat) (v t : Nat) (hf : ∀ a ∈ L, f a = if a = i then t else v) :
    (L.map f).sum = (L.length - 1) * v + t := by
  induction L with
  | nil => cases hmem
  | cons a L ih =>
    rw [List.map_cons, List.sum_cons]
    rcases List.mem_cons.mp hmem with rfl | hmem'
    · rw [hf _ (List.mem_cons_self _ _), if_pos rfl]
      have hnotin := (List.nodup_cons.mp hnd).1
      have hconst : ∀ b ∈ L, f b = v := by
        intro b hb
        rw [hf b (List.mem_cons_of_mem _ hb), if_neg]
        rintro rfl
        exact hnotin hb
      rw [sum_map_constant f v hconst, List.length_cons]
      have hl : L.length + 1 - 1 = L.length := by omega
      rw [hl]
      ring
    · have hat : a ≠ i := by
        rintro rfl
        exact (List.nodup_cons.mp hnd).1 hmem'
      rw [hf a (List.mem_cons_self a L), if_neg hat,
        ih (List.nodup_cons.mp hnd).2 hmem'
          (fun b hb => hf b (List.mem_cons_of_mem _ hb)), List.length_cons]
      obtain ⟨m, hm⟩ : ∃ m, L.length = m + 1 :=
        ⟨L.length - 1, by have := List.length_pos_of_mem hmem'; omega⟩
      rw [hm]
      have e1 : m + 1 - 1 = m := by omega
      have e2 : m + 1 + 1 - 1 = m + 1 := by omega
      rw [e1, e2]
      ring

lemma neighbors_length (g : Grid) (hw : g.WF) {i j : Nat} (hi : i < g.n_rows)
    (hj : j < g.n_cols) :
    (g.neighbors (g.cellAt i j)).length =
      (min (i + 2) g.n_rows - (i - 1)) * (min (j + 2) g.n_cols - (j - 1)) - 1 := by
  unfold Grid.neighbors
  rw [hw.cellAt_i hi hj, hw.cellAt_j hi hj, List.length_flatMap]
  have hnd : (pyRange (max (i - 1) 0) (min (i + 2) g.n_rows)).Nodup := by
    unfold pyRange
    exact List.nodup_range' _ _
  have hmem : i ∈ pyRange (max (i - 1) 0) (min (i + 2) g.n_rows) := by
    rw [mem_pyRange]
    omega
  have hf : ∀ a ∈ pyRange (max (i - 1) 0) (min (i + 2) g.n_rows),
      (List.length ∘ fun a =>
        (pyRange (max (j - 1) 0) (min (j + 2) g.n_cols)).filterMap fun b =>
          if a = i ∧ b = j then none else some (g.cellAt a b)) a =
      if a = i then (min (j + 2) g.n_cols - (j - 1)) - 1
      else min (j + 2) g.n_cols - (j - 1) := by
    intro a ha
    by_cases hai : a = i
    · rw [if_pos hai, hai]
      exact inner_length_eq g i hj
    · rw [if_neg hai]
      exact inner_length_ne g j hai
  rw [sum_map_single hnd hmem _ _ _ hf]
  unfold pyRange
  rw [List.length_range']
  have hmax : max (i - 1) 0 = i - 1 := Nat.max_zero _
  rw [hmax]
  obtain ⟨k, hk⟩ : ∃ k, min (i + 2) g.n_rows - (i - 1) = k + 1 :=
    ⟨min (i + 2) g.n_rows - (i - 1) - 1, by omega⟩
  obtain ⟨l, hl⟩ : ∃ l, min (j + 2) g.n_cols - (j - 1) = l + 1 :=
    ⟨min (j + 2) g.n_cols - (j - 1) - 1, by omega⟩
  rw [hk, hl]
  have e1 : k + 1 - 1 = k := by omega
  rw [e1, Nat.succ_mul]
  omega

/-- Claim C3: on any well-formed grid with at least 2 rows and 2 columns,
`neighbors` of the cell at in-bounds `(i, j)` returns exactly the cells
whose index differs from `(i, j)` by at most 1 in each dimension, clipped at
the boundary with no wraparound, never the cell itself; 8 cells for
interior, 5 for edge (non-corner), 3 for corner positions. -/
theorem neighbors_adjacent_clipped (g : Grid) (hw : g.WF) (hR : 2 ≤ g.n_rows)
    (hC : 2 ≤ g.n_cols) (i j : Nat) (hi : i < g.n_rows) (hj : j < g.n_cols) :
    (∀ d, d ∈ g.neighbors (g.cellAt i j) ↔
      ∃ a b : Nat, a < g.n_rows ∧ b < g.n_cols ∧ ¬(a = i ∧ b = j) ∧
        a ≤ i + 1 ∧ i ≤ a + 1 ∧ b ≤ j + 1 ∧ j ≤ b + 1 ∧ d = g.cellAt a b) ∧
    g.cellAt i j ∉ g.neighbors (g.cellAt i j) ∧
    ((0 < i ∧ i + 1 < g.n_rows) ∧ (0 < j ∧ j + 1 < g.n_cols) →
      (g.neighbors (g.cellAt i j)).length = 8) ∧
    (((0 < i ∧ i + 1 < g.n_rows) ∧ ¬(0 < j ∧ j + 1 < g.n_cols)) ∨
      (¬(0 < i ∧ i + 1 < g.n_rows) ∧ (0 < j ∧ j + 1 < g.n_cols)) →
      (g.neighbors (g.cellAt i j)).length = 5) ∧
    (¬(0 < i ∧ i + 1 < g.n_rows) ∧ ¬(0 < j ∧ j + 1 < g.n_cols) →
      (g.neighbors (g.cellAt i j)).length = 3) := by
  have hmemc : ∀ d, d ∈ g.neighbors (g.cellAt i j) ↔
      ∃ a b : Nat, a < g.n_rows ∧ b < g.n_cols ∧ ¬(a = i ∧ b = j) ∧
        a ≤ i + 1 ∧ i ≤ a + 1 ∧ b ≤ j + 1 ∧ j ≤ b + 1 ∧ d = g.cellAt a b := by
    intro d
    rw [neighbors_mem, hw.cellAt_i hi hj, hw.cellAt_j hi hj]
    constructor
    · rintro ⟨a, b, ha, hb, hab, rfl⟩
      rw [mem_pyRange] at ha hb
      exact ⟨a, b, by omega, by omega, hab, by omega, by omega, by omega, by omega, rfl⟩
    · rintro ⟨a, b, haR, hbC, hab, h1, h2, h3, h4, rfl⟩
      exact ⟨a, b, mem_pyRange.mpr (by omega), mem_pyRange.mpr (by omega), hab, rfl⟩
  refine ⟨hmemc, ?_, ?_, ?_, ?_⟩
  · intro hmem
    rw [hmemc] at hmem
    obtain ⟨a, b, haR, hbC, hab, _, _, _, _, heq⟩ := hmem
    apply hab
    constructor
    · have hcon := congrArg Cell.i heq
      rw [hw.cellAt_i hi hj, hw.cellAt_i haR hbC] at hcon
      exact hcon.symm
    · have hcon := congrArg Cell.j heq
      rw [hw.cellAt_j hi hj, hw.cellAt_j haR hbC] at hcon
      exact hcon.symm
  · rintro ⟨hii, hjj⟩
    rw [neighbors_length g hw hi hj]
    have e1 : min (i + 2) g.n_rows - (i - 1) = 3 := by omega
    have e2 : min (j + 2) g.n_cols - (j - 1) = 3 := by omega
    rw [e1, e2]
  · rintro (⟨hii, hjj⟩ | ⟨hii, hjj⟩)
    · rw [neighbors_length g hw hi hj]
      have e1 : min (i + 2) g.n_rows - (i - 1) = 3 := by omega
      have e2 : min (j + 2) g.n_cols - (j - 1) = 2 := by omega
      rw [e1, e2]
    · rw [neighbors_length g hw hi hj]
      have e1 : min (i + 2) g.n_rows - (i - 1) = 2 := by omega
      have e2 : min (j + 2) g.n_cols - (j - 1) = 3 := by omega
      rw [e1, e2]
  · rintro ⟨hii, hjj⟩
    rw [neighbors_length g hw hi hj]
    have e1 : min (i + 2) g.n_rows - (i - 1) = 2 := by omega
    have e2 : min (j + 2) g.n_cols - (j - 1) = 2 := by omega
    rw [e1, e2]

/-- Witness for C3 on the concrete 3×3 grid at the interior cell `(1,1)`. -/
theorem neighbors_adjacent_clipped_witness :
    (Grid.init 3 3 1).WF ∧
    ((Grid.init 3 3 1).neighbors ((Grid.init 3 3 1).cellAt 1 1)).length = 8 :=
  ⟨by decide,
    (neighbors_adjacent_clipped (Grid.init 3 3 1) (by decide) (by decide) (by decide)
      1 1 (by decide) (by decide)).2.2.1 (by decide)⟩

lemma npIndex_in {n : Nat} {k : Int} (h1 : -(n : Int) ≤ k) (h2 : k < (n : Int)) :
    npIndex n k = some (wrapIdx n k) := by
  unfold npIndex wrapIdx
  by_cases h0 : 0 ≤ k
  · rw [if_pos h0, if_pos h2, if_pos h0]
  · rw [if_neg h0, if_pos h1, if_neg h0]

lemma npIndex_out {n : Nat} {k : Int} (h : k < -(n : Int) ∨ (n : Int) ≤ k) :
    npIndex n k = none := by
  unfold npIndex
  rcases h with h | h
  · rw [if_neg (by omega), if_neg (by omega)]
  · rw [if_pos (by omega), if_neg (by omega)]

lemma wrapIdx_lt {n : Nat} {k : Int} (h1 : -(n : Int) ≤ k) (h2 : k < (n : Int)) :
    wrapIdx n k < n := by
  unfold wrapIdx
  by_cases h0 : 0 ≤ k
  · rw [if_pos h0]
    omega
  · rw [if_neg h0]
    omega

lemma wrapIdx_ofNat (n m : Nat) : wrapIdx n (m : Int) = m := by
  unfold wrapIdx
  rw [if_pos (by omega)]
  omega

lemma Grid.toggle_in {g : Grid} {R C : Nat} (hd : g.Dims R C) {i j : Int}
    (hi1 : -(R : Int) ≤ i) (hi2 : i < (R : Int)) (hj1 : -(C : Int) ≤ j)
    (hj2 : j < (C : Int)) :
    g.toggle i j = some (g.toggleAt (wrapIdx R i) (wrapIdx C j)) := by
  unfold Grid.toggle
  rw [hd.1, npIndex_in hi1 hi2, Option.some_bind,
    hd.row_len (wrapIdx_lt hi1 hi2), npIndex_in hj1 hj2, Option.some_bind]

lemma Grid.toggle_out {g : Grid} {R C : Nat} (hd : g.Dims R C) {i j : Int}
    (h : (R : Int) ≤ i ∨ i < -(R : Int) ∨ (C : Int) ≤ j ∨ j < -(C : Int)) :
    g.toggle i j = none := by
  unfold Grid.toggle
  by_cases hi : -(R : Int) ≤ i ∧ i < (R : Int)
  · rw [hd.1, npIndex_in hi.1 hi.2, Option.some_bind,
      hd.row_len (wrapIdx_lt hi.1 hi.2), npIndex_out (by omega), Option.none_bind]
  · rw [hd.1, npIndex_out (by omega), Option.none_bind]

/-- Counterexample to claim C4: on a 2×2 grid, `toggle(-1, 0)` is not
rejected — numpy indexing wraps the negative row index to the last row, so
the call succeeds and flips cell `(1, 0)`. -/
theorem toggle_negative_index_counterexample :
    (Grid.init 2 2 1).toggle (-1) 0 = some ((Grid.init 2 2 1).toggleAt 1 0) ∧
    (((Grid.init 2 2 1).toggleAt 1 0).cellAt 1 0).alive = true ∧
    ((Grid.init 2 2 1).cellAt 1 0).alive = false := by
  decide

/-- Claim C4 amended: `toggle(i, j)` follows numpy indexing. An index pair
with `-n_rows ≤ i < n_rows` and `-n_cols ≤ j < n_cols` is accepted —
negative values wrap Python-style to `n_rows + i` / `n_cols + j` — and
exactly the addressed (wrapped) cell is flipped; in particular nonnegative
in-bounds pairs flip exactly the addressed cell. Only indices at or beyond
the axis sizes (`i ≥ n_rows`, `j ≥ n_cols`, `i < -n_rows`, `j < -n_cols`)
fail with the out-of-range condition, leaving the grid unmodified. -/
theorem toggle_numpy_index_semantics (g : Grid) (hw : g.WF) (i j : Int) :
    ((-(g.n_rows : Int) ≤ i ∧ i < (g.n_rows : Int) ∧
        -(g.n_cols : Int) ≤ j ∧ j < (g.n_cols : Int)) →
      g.toggle i j = some (g.toggleAt (wrapIdx g.n_rows i) (wrapIdx g.n_cols j)) ∧
      ∀ a b : Nat, a < g.n_rows → b < g.n_cols →
        (g.toggleAt (wrapIdx g.n_rows i) (wrapIdx g.n_cols j)).cellAt a b =
          if a = wrapIdx g.n_rows i ∧ b = wrapIdx g.n_cols j
          then (g.cellAt a b).toggle else g.cellAt a b) ∧
    (((g.n_rows : Int) ≤ i ∨ i < -(g.n_rows : Int) ∨
        (g.n_cols : Int) ≤ j ∨ j < -(g.n_cols : Int)) →
      g.toggle i j = none) := by
  constructor
  · rintro ⟨hi1, hi2, hj1, hj2⟩
    refine ⟨Grid.toggle_in hw.dims hi1 hi2 hj1 hj2, ?_⟩
    intro a b ha hb
    by_cases hab : a = wrapIdx g.n_rows i ∧ b = wrapIdx g.n_cols j
    · rw [if_pos hab, hab.1, hab.2]
      exact Grid.cellAt_toggleAt_self g
        (by rw [hw.dims.1]; exact wrapIdx_lt hi1 hi2)
        (by rw [hw.dims.row_len (wrapIdx_lt hi1 hi2)]; exact wrapIdx_lt hj1 hj2)
    · rw [if_neg hab]
      exact Grid.cellAt_toggleAt_ne g hab
  · intro h
    exact Grid.toggle_out hw.dims h

/-- Witness for C4 (amended) on the 2×2 grid: `toggle(2, 0)` is rejected. -/
theorem toggle_numpy_index_semantics_witness :
    (Grid.init 2 2 1).WF ∧ (Grid.init 2 2 1).toggle 2 0 = none :=
  ⟨by decide,
    (toggle_numpy_index_semantics (Grid.init 2 2 1) (by decide) 2 0).2 (by decide)⟩

/-- Counterexample to claim C5: on a 2×2 grid with `cell_size = 1`, the
mouse position `(0, 2)` maps by integer division to indices `(0, 2)`; the
column index 2 is outside the grid extent, and the handler does not reject
it — the out-of-range `IndexError` (modelled as `none`) propagates out of
`handle_events` uncaught instead. -/
theorem handle_click_out_of_extent_counterexample :
    (0 / (Grid.init 2 2 1).cell_size = 0 ∧ 2 / (Grid.init 2 2 1).cell_size = 2 ∧
      (Grid.init 2 2 1).n_cols = 2) ∧
    handleClick (Grid.init 2 2 1) 0 2 = none := by
  decide

/-- Claim C5 amended: the handler maps the mouse position by integer
division of each pixel coordinate by `cell_size` (passing `x // cell_size`
as the row index and `y // cell_size` as the column index) and toggles that
cell when both mapped indices are within the grid; when either mapped index
reaches beyond the grid extent the out-of-range error propagates uncaught
(`none`) — the position is not rejected. -/
theorem handle_click_division_mapping (g : Grid) (hw : g.WF)
    (hcs : 0 < g.cell_size) (x y : Nat) :
    ((x / g.cell_size < g.n_rows ∧ y / g.cell_size < g.n_cols) →
      handleClick g x y = some (g.toggleAt (x / g.cell_size) (y / g.cell_size))) ∧
    ((g.n_rows ≤ x / g.cell_size ∨ g.n_cols ≤ y / g.cell_size) →
      handleClick g x y = none) := by
  constructor
  · rintro ⟨hx, hy⟩
    unfold handleClick
    have hx0 : (0 : Int) ≤ ((x / g.cell_size : Nat) : Int) := Int.natCast_nonneg _
    have hy0 : (0 : Int) ≤ ((y / g.cell_size : Nat) : Int) := Int.natCast_nonneg _
    have hR0 : (0 : Int) ≤ (g.n_rows : Int) := Int.natCast_nonneg _
    have hC0 : (0 : Int) ≤ (g.n_cols : Int) := Int.natCast_nonneg _
    rw [Grid.toggle_in hw.dims (by omega) (by exact_mod_cast hx) (by omega)
      (by exact_mod_cast hy), wrapIdx_ofNat, wrapIdx_ofNat]
  · intro h
    unfold handleClick
    apply Grid.toggle_out hw.dims
    rcases h with h | h
    · left
      exact_mod_cast h
    · right
      right
      left
      exact_mod_cast h

/-- Witness for C5 (amended) on the 2×2 grid at mouse position `(0, 0)`. -/
theorem handle_click_division_mapping_witness :
    (Grid.init 2 2 1).WF ∧ 0 < (Grid.init 2 2 1).cell_size ∧
    handleClick (Grid.init 2 2 1) 0 0 = some ((Grid.init 2 2 1).toggleAt 0 0) :=
  ⟨by decide, by decide,
    (handle_click_division_mapping (Grid.init 2 2 1) (by decide) (by decide) 0 0).1
      (by decide)⟩

lemma filterMap_ite_eq_filter_map {p : Nat → Prop} [DecidablePred p]
    (f : Nat → Cell) (l : List Nat) :
    (l.filterMap fun b => if p b then none else some (f b)) =
      (l.filter fun b => decide ¬p b).map f := by
  induction l with
  | nil => rfl
  | cons b l ih =>
    rw [List.filterMap_cons, List.filter_cons]
    by_cases hb : p b
    · simp [hb, ih]
    · simp [hb, ih]

lemma count_alive_congr {g1 g2 : Grid} (hR : g1.n_rows = g2.n_rows)
    (hC : g1.n_cols = g2.n_cols)
    (hA : ∀ a, a < g1.n_rows → ∀ b, b < g1.n_cols →
      (g1.cellAt a b).alive = (g2.cellAt a b).alive)
    {c1 c2 : Cell} (hi : c1.i = c2.i) (hj : c1.j = c2.j) :
    g1.count_alive_neighbors c1 = g2.count_alive_neighbors c2 := by
  unfold Grid.count_alive_neighbors Grid.neighbors
  rw [hi, hj, hR, hC, List.countP_flatMap, List.countP_flatMap]
  apply congrArg List.sum
  apply List.map_congr_left
  intro a ha
  rw [mem_pyRange] at ha
  simp only [Function.comp_apply]
  rw [filterMap_ite_eq_filter_map, filterMap_ite_eq_filter_map,
    List.countP_map, List.countP_map]
  apply List.countP_congr
  intro b hb
  rw [List.mem_filter, mem_pyRange] at hb
  simp only [Function.comp_apply]
  rw [hA a (by omega) b (by omega)]

/-- Claim C8: `update` is deterministic — two well-formed grids with the
same dimensions and the same alive flag at every index (they may differ in
`cell_size` or cell rectangles) produce the same alive flag at every index
after one `update`. -/
theorem update_deterministic (g1 g2 : Grid) (hw1 : g1.WF) (hw2 : g2.WF)
    (hR : g1.n_rows = g2.n_rows) (hC : g1.n_cols = g2.n_cols)
    (hA : ∀ i, i < g1.n_rows → ∀ j, j < g1.n_cols →
      g1.aliveAt i j = g2.aliveAt i j) :
    ∀ i, i < g1.n_rows → ∀ j, j < g1.n_cols →
      g1.update.aliveAt i j = g2.update.aliveAt i j := by
  intro i hi j hj
  have hi2 : i < g2.n_rows := by omega
  have hj2 : j < g2.n_cols := by omega
  have hA' : ∀ a, a < g1.n_rows → ∀ b, b < g1.n_cols →
      (g1.cellAt a b).alive = (g2.cellAt a b).alive := fun a ha b hb => hA a ha b hb
  have hcnt : g1.count_alive_neighbors (g1.cellAt i j) =
      g2.count_alive_neighbors (g2.cellAt i j) :=
    count_alive_congr hR hC hA'
      (by rw [hw1.cellAt_i hi hj, hw2.cellAt_i hi2 hj2])
      (by rw [hw1.cellAt_j hi hj, hw2.cellAt_j hi2 hj2])
  have hrule : g1.rule (g1.cellAt i j) = g2.rule (g2.cellAt i j) := by
    unfold Grid.rule
    rw [hcnt, hA' i hi j hj]
  unfold Grid.aliveAt
  rw [Grid.update_cellAt hw1 hi hj, Grid.update_cellAt hw2 hi2 hj2]
  by_cases hr : g1.rule (g1.cellAt i j) = true
  · rw [if_pos hr, if_pos (by rw [← hrule]; exact hr),
      Cell.toggle_alive, Cell.toggle_alive, hA' i hi j hj]
  · rw [if_neg hr, if_neg (by rw [← hrule]; exact hr)]
    exact hA' i hi j hj

/-- Witness for C8 on two 2×2 grids that differ only in `cell_size`. -/
theorem update_deterministic_witness :
    ((Grid.init 2 2 5).WF ∧ (Grid.init 2 2 7).WF ∧
      (Grid.init 2 2 5).n_rows = (Grid.init 2 2 7).n_rows ∧
      (Grid.init 2 2 5).n_cols = (Grid.init 2 2 7).n_cols ∧
      (∀ i, i < (Grid.init 2 2 5).n_rows → ∀ j, j < (Grid.init 2 2 5).n_cols →
        (Grid.init 2 2 5).aliveAt i j = (Grid.init 2 2 7).aliveAt i j)) ∧
    ∀ i, i < (Grid.init 2 2 5).n_rows → ∀ j, j < (Grid.init 2 2 5).n_cols →
      (Grid.init 2 2 5).update.aliveAt i j = (Grid.init 2 2 7).update.aliveAt i j :=
  ⟨⟨by decide, by decide, by decide, by decide, by decide⟩,
    update_deterministic (Grid.init 2 2 5) (Grid.init 2 2 7)
      (by decide) (by decide) (by decide) (by decide) (by decide)⟩

lemma npIndex_some_lt {n : Nat} {k : Int} {a : Nat} (h : npIndex n k = some a) :
    a < n := by
  unfold npIndex at h
  by_cases h0 : 0 ≤ k
  · rw [if_pos h0] at h
    by_cases h1 : k < (n : Int)
    · rw [if_pos h1, Option.some.injEq] at h
      omega
    · rw [if_neg h1] at h
      cases h
  · rw [if_neg h0] at h
    by_cases h1 : -(n : Int) ≤ k
    · rw [if_pos h1, Option.some.injEq] at h
      omega
    · rw [if_neg h1] at h
      cases h

lemma Grid.toggle_some_shape {g : Grid} {i j : Int} {g' : Grid}
    (h : g.toggle i j = some g') :
    ∃ a b : Nat, a < g.cells.length ∧ b < (g.cells.getD a []).length ∧
      g' = g.toggleAt a b := by
  unfold Grid.toggle at h
  cases hni : npIndex g.cells.length i with
  | none =>
    rw [hni, Option.none_bind] at h
    cases h
  | some a =>
    rw [hni, Option.some_bind] at h
    cases hnj : npIndex (g.cells.getD a []).length j with
    | none =>
      rw [hnj, Option.none_bind] at h
      cases h
    | some b =>
      rw [hnj, Option.some_bind, Option.some.injEq] at h
      exact ⟨a, b, npIndex_some_lt hni, npIndex_some_lt hnj, h.symm⟩

/-- Claim C9: `update` and `toggle` mutate only alive flags — the grid's
`n_rows`, `n_cols`, `cell_size` and the shape of the cell collection are
unchanged (no cell is added or removed), and every cell keeps its `i`, `j`
and rectangle; `neighbors`, `count_alive_neighbors` and `rule` are pure
queries (they are functions of the grid returning values, not new grids). -/
theorem grid_mutations_preserve_structure (g : Grid) (hw : g.WF) :
    (g.update.n_rows = g.n_rows ∧ g.update.n_cols = g.n_cols ∧
      g.update.cell_size = g.cell_size ∧
      g.update.cells.length = g.cells.length ∧
      (∀ n, n < g.cells.length →
        (g.update.cells.getD n []).length = (g.cells.getD n []).length) ∧
      (∀ i, i < g.n_rows → ∀ j, j < g.n_cols →
        (g.update.cellAt i j).i = (g.cellAt i j).i ∧
        (g.update.cellAt i j).j = (g.cellAt i j).j ∧
        (g.update.cellAt i j).rect = (g.cellAt i j).rect)) ∧
    (∀ i j : Int, ∀ g' : Grid, g.toggle i j = some g' →
      g'.n_rows = g.n_rows ∧ g'.n_cols = g.n_cols ∧ g'.cell_size = g.cell_size ∧
      g'.cells.length = g.cells.length ∧
      (∀ n, n < g.cells.length →
        (g'.cells.getD n []).length = (g.cells.getD n []).length) ∧
      (∀ a, a < g.n_rows → ∀ b, b < g.n_cols →
        (g'.cellAt a b).i = (g.cellAt a b).i ∧
        (g'.cellAt a b).j = (g.cellAt a b).j ∧
        (g'.cellAt a b).rect = (g.cellAt a b).rect)) := by
  have hdU : g.update.Dims g.n_rows g.n_cols := Grid.update_dims hw.dims
  constructor
  · refine ⟨Grid.update_n_rows g, Grid.update_n_cols g, Grid.update_cell_size g,
      ?_, ?_, ?_⟩
    · rw [hdU.1, hw.1]
    · intro n hn
      have hnR : n < g.n_rows := by rw [← hw.1]; exact hn
      rw [hdU.row_len hnR, hw.dims.row_len hnR]
    · intro i hi j hj
      rw [Grid.update_cellAt hw hi hj]
      by_cases hr : g.rule (g.cellAt i j) = true
      · rw [if_pos hr]
        exact ⟨Cell.toggle_i _, Cell.toggle_j _, Cell.toggle_rect _⟩
      · rw [if_neg hr]
        exact ⟨rfl, rfl, rfl⟩
  · intro i j g' hg'
    obtain ⟨a, b, ha, hb, rfl⟩ := Grid.toggle_some_shape hg'
    have hdT : (g.toggleAt a b).Dims g.n_rows g.n_cols := hw.dims.toggleAt a b
    refine ⟨rfl, rfl, rfl, ?_, ?_, ?_⟩
    · rw [hdT.1, hw.1]
    · intro n hn
      have hnR : n < g.n_rows := by rw [← hw.1]; exact hn
      rw [hdT.row_len hnR, hw.dims.row_len hnR]
    · intro p hp q hq
      by_cases hpq : p = a ∧ q = b
      · rw [hpq.1, hpq.2, Grid.cellAt_toggleAt_self g ha hb]
        exact ⟨Cell.toggle_i _, Cell.toggle_j _, Cell.toggle_rect _⟩
      · rw [Grid.cellAt_toggleAt_ne g hpq]
        exact ⟨rfl, rfl, rfl⟩

/-- Witness for C9 on the concrete 2×2 grid. -/
theorem grid_mutations_preserve_structure_witness :
    (Grid.init 2 2 1).WF ∧
    (Grid.init 2 2 1).update.n_rows = (Grid.init 2 2 1).n_rows :=
  ⟨by decide, (grid_mutations_preserve_structure (Grid.init 2 2 1) (by decide)).1.1⟩

/-- Claim C10: the rendering geometry and the click mapping are transposed
the same way and agree. The cell at `(i, j)` of a freshly built grid is
drawn in the rectangle with top-left pixel `(i*cell_size, j*cell_size)`
(its row index determines the horizontal coordinate, since `Cell.draw`
fills `self.rect = Rect(i*size, j*size, size, size)`), a pixel `(x, y)`
lies in that rectangle exactly when the handler mapping
`(x // cell_size, y // cell_size)` hits `(i, j)`, and the handler toggles
exactly the cell at those mapped indices. -/
theorem draw_click_geometry_agree (R C cs : Nat) (hcs : 0 < cs)
    (i j x y : Nat) (hi : i < R) (hj : j < C) :
    ((Grid.init R C cs).cellAt i j).rect = (i * cs, j * cs, cs, cs) ∧
    (rectContains ((Grid.init R C cs).cellAt i j).rect x y ↔
      (x / cs = i ∧ y / cs = j)) ∧
    ((x / cs < R ∧ y / cs < C) →
      handleClick (Grid.init R C cs) x y =
        some ((Grid.init R C cs).toggleAt (x / cs) (y / cs))) := by
  have hrect : ((Grid.init R C cs).cellAt i j).rect = (i * cs, j * cs, cs, cs) := by
    rw [init_cellAt R C cs hi hj]
    rfl
  refine ⟨hrect, ?_, ?_⟩
  · rw [hrect]
    unfold rectContains
    simp only
    constructor
    · rintro ⟨h1, h2, h3, h4⟩
      constructor
      · apply Nat.div_eq_of_lt_le h1
        rw [Nat.succ_mul]
        exact h2
      · apply Nat.div_eq_of_lt_le h3
        rw [Nat.succ_mul]
        exact h4
    · rintro ⟨rfl, rfl⟩
      refine ⟨Nat.div_mul_le_self x cs, ?_, Nat.div_mul_le_self y cs, ?_⟩
      · have hlt := (Nat.div_lt_iff_lt_mul hcs).mp (Nat.lt_succ_self (x / cs))
        rw [Nat.succ_mul] at hlt
        exact hlt
      · have hlt := (Nat.div_lt_iff_lt_mul hcs).mp (Nat.lt_succ_self (y / cs))
        rw [Nat.succ_mul] at hlt
        exact hlt
  · rintro ⟨hx, hy⟩
    show (Grid.init R C cs).toggle ((x / cs : Nat) : Int) ((y / cs : Nat) : Int) =
      some ((Grid.init R C cs).toggleAt (x / cs) (y / cs))
    have hwf : (Grid.init R C cs).Dims R C := by
      constructor
      · simp [Grid.init]
      · intro row hrow
        simp only [Grid.init, List.mem_map] at hrow
        obtain ⟨a, _, rfl⟩ := hrow
        simp
    have hx0 : (0 : Int) ≤ ((x / cs : Nat) : Int) := Int.natCast_nonneg _
    have hy0 : (0 : Int) ≤ ((y / cs : Nat) : Int) := Int.natCast_nonneg _
    have hR0 : (0 : Int) ≤ (R : Int) := Int.natCast_nonneg _
    have hC0 : (0 : Int) ≤ (C : Int) := Int.natCast_nonneg _
    rw [Grid.toggle_in hwf (by omega) (by exact_mod_cast hx) (by omega)
      (by exact_mod_cast hy), wrapIdx_ofNat, wrapIdx_ofNat]

/-- Witness for C10 on the 2×2 grid with `cell_size = 1` at cell `(0,0)`
and pixel `(0,0)`. -/
theorem draw_click_geometry_agree_witness :
    (0 < 1 ∧ (0 : Nat) < 2) ∧
    (rectContains ((Grid.init 2 2 1).cellAt 0 0).rect 0 0 ↔
      (0 / 1 = 0 ∧ 0 / 1 = 0)) :=
  ⟨⟨by decide, by decide⟩,
    (draw_click_geometry_agree 2 2 1 (by decide) 0 0 0 0 (by decide) (by decide)).2.1⟩
